import Mathlib

/-!
Verification of `src/scripts/dataverse_sync.py` (Dataverse → Postgres sync).

This file gives a shallow embedding of the script's core logic:

* `dv_get_paged` — the paging/retry fetch loop (source lines 97–134),
  modelled as a recursion over a *response script*: the list of HTTP
  responses the remote returns, consumed one per `session.get` call.
  Besides the accumulated rows the model records the trace of GET
  requests issued and of sleeps performed, and whether the Python code
  would have raised (and which exception).
* the Postgres staging helpers `ensure_schema`, `ensure_raw_table`,
  `truncate_table`, `insert_raw_rows`, `run_sql` (lines 140–179) over an
  explicit store state `DB`;
* the per-job orchestration of `main` (lines 185–389): selection of the
  requested table keys against the registry, the per-job
  fetch/ensure/truncate/insert/transform/commit sequence, rollback on
  exception, and the order of observable effects (authentication HTTP
  request, store connection, data GETs) as an event trace.
-/

namespace DataverseSync

/-- One HTTP response of the remote OData endpoint, as consumed by
`dv_get_paged`: the status code, the optional `Retry-After` header, the
parsed `value` array of records, and the parsed `@odata.nextLink`. -/
structure HResp (α : Type) where
  status : Nat
  retryAfter : Option String
  value : List α
  nextLink : Option String
deriving DecidableEq, Repr

/-- The exceptions the fetch loop can raise:
`resp.raise_for_status()` (line 123) raises for a 4xx/5xx status;
`int(...)` on a non-integer `Retry-After` header (line 119) raises
`ValueError`; a `session.get` with no response left in the script models
a transport-level failure of the request itself. -/
inductive FetchErr
  | httpError (status : Nat) (url : String)
  | valueError (header : String)
  | transport (url : String)
deriving DecidableEq, Repr

/-- Outcome of a fetch: the accumulated rows (meaningful when `err = none`;
on an exception the partial list is discarded by the raise), the URLs GET
requests were issued to, in order, the sleep durations performed, in
order, and the exception raised, if any. -/
structure FetchOut (α : Type) where
  rows : List α
  gets : List String
  sleeps : List Int
  err : Option FetchErr
deriving DecidableEq, Repr

/-- ASCII whitespace, as stripped by Python `int(s)`. -/
def isSpaceChar (c : Char) : Bool :=
  c == ' ' || c == '\t' || c == '\n' || c == '\r'

/-- Reads a non-empty run of decimal digits into `acc`; fails on any
non-digit character. -/
def digitsAcc? (acc : Nat) : List Char → Option Nat
  | [] => some acc
  | c :: rest =>
    if c.isDigit then digitsAcc? (acc * 10 + (c.toNat - 48)) rest else none

/-- Digit run with an optional single leading sign. -/
def pyIntCore? : List Char → Option Int
  | [] => none
  | c :: rest =>
    if c == '-' then
      if rest.isEmpty then none else (digitsAcc? 0 rest).map (fun n => -(n : Int))
    else if c == '+' then
      if rest.isEmpty then none else (digitsAcc? 0 rest).map (fun n => (n : Int))
    else (digitsAcc? 0 (c :: rest)).map (fun n => (n : Int))

/-- Python `int(s)` on the header string (line 119): strips surrounding
whitespace, then accepts an optional sign followed by decimal digits,
raising `ValueError` (here: `none`) on anything else. -/
def pyInt? (s : String) : Option Int :=
  pyIntCore? (((s.data.dropWhile isSpaceChar).reverse.dropWhile isSpaceChar).reverse)

/-- The throttling statuses of line 117: `resp.status_code in (429, 503, 504)`. -/
def isThrottle (s : Nat) : Bool :=
  s == 429 || s == 503 || s == 504

/-- Line 113: `if max_pages is not None and pages > max_pages: break`. -/
def capHit (max_pages : Option Nat) (pages : Nat) : Bool :=
  match max_pages with
  | none => false
  | some m => decide (m < pages)

/-- The `while url:` loop of `dv_get_paged` (lines 111–132).  Each
`session.get(url)` consumes the head of `script`; `pages` is the page
counter, incremented at the top of every iteration (line 112) — also for
iterations that end in a throttle `continue`. -/
def dv_get_paged_aux {α : Type} (max_pages : Option Nat) (sleep_s : Int) :
    List (HResp α) → Option String → Nat → FetchOut α
  | script, url, pages =>
    if url.getD "" = "" then
      -- `while url:` — None or empty string ends the loop
      ⟨[], [], [], none⟩
    else
      let u := url.getD ""
      let pages1 := pages + 1
      if capHit max_pages pages1 then
        ⟨[], [], [], none⟩
      else
        match script with
        | [] => ⟨[], [u], [], some (.transport u)⟩
        | r :: rest =>
          if isThrottle r.status then
            -- lines 117–121: basic backoff, retry the same url
            let hdr := r.retryAfter.getD "5"
            match pyInt? hdr with
            | none => ⟨[], [u], [], some (.valueError hdr)⟩
            | some d =>
              let o := dv_get_paged_aux max_pages sleep_s rest url pages1
              ⟨o.rows, u :: o.gets, max d 5 :: o.sleeps, o.err⟩
          else if 400 ≤ r.status then
            -- line 123: resp.raise_for_status()
            ⟨[], [u], [], some (.httpError r.status u)⟩
          else
            -- lines 124–132: extend rows, follow @odata.nextLink
            let chunk := r.value
            let o := dv_get_paged_aux max_pages sleep_s rest r.nextLink pages1
            ⟨(if chunk.isEmpty then [] else chunk) ++ o.rows,
             u :: o.gets,
             (if sleep_s ≠ 0 then [sleep_s] else []) ++ o.sleeps,
             o.err⟩

/-- `dv_get_paged(session, first_url, max_pages, sleep_s)` (lines 97–134),
where the remote's behaviour is the response `script`. -/
def dv_get_paged {α : Type} (script : List (HResp α)) (first_url : String)
    (max_pages : Option Nat) (sleep_s : Int) : FetchOut α :=
  dv_get_paged_aux max_pages sleep_s script (some first_url) 0

/-! ### Postgres staging model (lines 140–179)

The store state is the set of schemas and an association list from
(schema, table) to the list of staged payload strings.  A row's
`pulled_at` timestamp is server-generated and carries no information
about the sync logic, so a staged row is modelled by its payload. -/

/-- A staging location: (schema, table). -/
abbrev Loc := String × String

/-- The visible state of the analytics store. -/
structure DB where
  schemas : List String
  tables : List (Loc × List String)
deriving DecidableEq, Repr

/-- First-match lookup in the tables association list. -/
def tblGet : List (Loc × List String) → Loc → Option (List String)
  | [], _ => none
  | (l', v) :: t, l => if l' = l then some v else tblGet t l

/-- Update (or create) the binding of a location. -/
def tblSet : List (Loc × List String) → Loc → List String → List (Loc × List String)
  | [], l, v => [(l, v)]
  | (l', v') :: t, l, v => if l' = l then (l, v) :: t else (l', v') :: tblSet t l v

/-- `CREATE SCHEMA IF NOT EXISTS` (lines 140–141). -/
def ensure_schema (db : DB) (schema : String) : DB :=
  if schema ∈ db.schemas then db else { db with schemas := db.schemas ++ [schema] }

/-- `CREATE TABLE IF NOT EXISTS` (lines 144–152): creates the location
empty when absent, leaves it untouched when present. -/
def ensure_raw_table (db : DB) (l : Loc) : DB :=
  match tblGet db.tables l with
  | some _ => db
  | none => { db with tables := tblSet db.tables l [] }

/-- `TRUNCATE TABLE` (lines 155–156): unconditionally empties the location. -/
def truncate_table (db : DB) (l : Loc) : DB :=
  { db with tables := tblSet db.tables l [] }

/-- `insert_raw_rows` (lines 159–172): a no-op on an empty row list
(line 163–164), otherwise appends `json.dumps(r)` for each record. -/
def insert_raw_rows {α : Type} (dumps : α → String) (db : DB) (l : Loc)
    (rows : List α) : DB :=
  if rows.isEmpty then db
  else
    { db with
      tables := tblSet db.tables l ((tblGet db.tables l).getD [] ++ rows.map dumps) }

/-- `run_sql` (lines 175–179): executes an opaque statement.  A transform
statement is modelled by its semantics on the store state, `none`
meaning the statement raised. -/
def run_sql (stmt : DB → Option DB) (db : DB) : Option DB :=
  stmt db

/-- The ensure + truncate + load sequence of `main` (lines 365–368). -/
def stage_load {α : Type} (dumps : α → String) (db : DB) (l : Loc)
    (rows : List α) : DB :=
  insert_raw_rows dumps
    (truncate_table (ensure_raw_table (ensure_schema db l.1) l) l) l rows

/-! ### Job orchestration (`main`, lines 185–389)

A `Job` is one entry of the `TABLES` registry as `main` consumes it,
with the remote's behaviour for this job already resolved into the
outcome of its `dv_get_paged` call, and the opaque transform statement
resolved into its semantics on the store. -/

/-- One unit of work of the run loop (lines 337–378). -/
structure Job (α : Type) where
  key : String
  loc : Loc
  fetch : FetchOut α
  transform_sql : Option (DB → Option DB)

/-- Observable effects of a run, in order. -/
inductive Event
  | authRequest
  | storeConnect
  | httpGet (url : String)
  | jobStart (key : String)
  | commit
  | rollback
deriving DecidableEq, Repr

/-- One iteration of the job loop (lines 337–375), acting on the
uncommitted transaction state: fetch, ensure schema and table, truncate,
bulk insert, then the optional transform.  `none` means an exception was
raised at some step. -/
def run_job {α : Type} (dumps : α → String) (no_transform : Bool) (db : DB)
    (j : Job α) : Option DB :=
  if j.fetch.err.isSome then none
  else
    let db := ensure_schema db j.loc.1
    let db := ensure_raw_table db j.loc
    let db := truncate_table db j.loc
    let db := insert_raw_rows dumps db j.loc j.fetch.rows
    if no_transform then some db
    else
      match j.transform_sql with
      | none => some db
      | some stmt => run_sql stmt db

/-- The `for key in run_keys` loop with its surrounding
try/except (lines 335–383): each successful job commits; the first
exception rolls the in-flight transaction back to the last committed
state and re-raises, so no later job is attempted.  Returns the final
committed store, whether the run succeeded, and the trace of events. -/
def run_jobs {α : Type} (dumps : α → String) (no_transform : Bool) (db : DB) :
    List (Job α) → DB × Bool × List Event
  | [] => (db, true, [])
  | j :: rest =>
    let jev := Event.jobStart j.key :: j.fetch.gets.map Event.httpGet
    match run_job dumps no_transform db j with
    | none => (db, false, jev ++ [Event.rollback])
    | some d =>
      let r := run_jobs dumps no_transform d rest
      (r.1, r.2.1, jev ++ Event.commit :: r.2.2)

/-- Runs a list of jobs demanding that every one succeeds, returning the
final committed store; `none` as soon as one raises. -/
def run_all {α : Type} (dumps : α → String) (no_transform : Bool) (db : DB) :
    List (Job α) → Option DB
  | [] => some db
  | j :: rest =>
    match run_job dumps no_transform db j with
    | none => none
    | some d => run_all dumps no_transform d rest

/-- The keys (attempted jobs) of an event trace. -/
def startedKeys (evs : List Event) : List String :=
  evs.filterMap fun e =>
    match e with
    | Event.jobStart k => some k
    | _ => none

/-- The keys of the `TABLES` registry (lines 230–320), in declaration
order. -/
def TABLES_keys : List String :=
  ["new_servloc", "fsip_maintenancecontract", "fsip_buildinglocations",
   "fsip_maintenancecontract_devices", "systemusers"]

/-- The selection logic of lines 322–329: `args.only` is `none` when the
flag is absent; an empty list is falsy in Python, so it also runs every
registered key.  A non-empty list must consist of registry keys, else
the run returns exit status 2 with the offending keys. -/
def selectKeys (only : Option (List String)) : Except (List String) (List String) :=
  match only with
  | none => Except.ok TABLES_keys
  | some ks =>
    if ks.isEmpty then Except.ok TABLES_keys
    else
      let missing := ks.filter fun k => !(TABLES_keys.contains k)
      if missing.isEmpty then Except.ok ks else Except.error missing

/-- The command-line arguments `main` consumes (lines 186–192), less the
env-file path. -/
structure MainArgs where
  only : Option (List String)
  no_transform : Bool

/-- How a run of `main` ends: `exit0` — normal completion (line 388);
`exit2` — unknown requested keys (line 328); `raised` — an exception was
re-raised after rollback (line 383). -/
inductive MainOutcome
  | exit0
  | exit2 (missing : List String)
  | raised
deriving DecidableEq, Repr

/-- `main` (lines 185–389) after configuration loading: authentication
happens first (line 206, one HTTP POST — recorded as `Event.authRequest`),
then the key selection check (lines 322–329), then the store connection
(line 332, `Event.storeConnect`) and the job loop.  `jobOf` resolves a
registry key to its job (its staging location, the outcome of its
`dv_get_paged` call against the remote, and its transform semantics). -/
def main {α : Type} (args : MainArgs) (dumps : α → String)
    (jobOf : String → Job α) (db0 : DB) : MainOutcome × List Event × DB :=
  match selectKeys args.only with
  | Except.error missing => (MainOutcome.exit2 missing, [Event.authRequest], db0)
  | Except.ok run_keys =>
    let r := run_jobs dumps args.no_transform db0 (run_keys.map jobOf)
    ((if r.2.1 then MainOutcome.exit0 else MainOutcome.raised),
     Event.authRequest :: Event.storeConnect :: r.2.2,
     r.1)

/-! ### Basic lemmas about the fetch loop -/

/-- One-step unfolding of the fetch loop. -/
theorem aux_unfold {α : Type} (mp : Option Nat) (s : Int) (script : List (HResp α))
    (url : Option String) (pages : Nat) :
    dv_get_paged_aux mp s script url pages =
    (if url.getD "" = "" then
      ⟨[], [], [], none⟩
    else
      let u := url.getD ""
      let pages1 := pages + 1
      if capHit mp pages1 then
        ⟨[], [], [], none⟩
      else
        match script with
        | [] => ⟨[], [u], [], some (.transport u)⟩
        | r :: rest =>
          if isThrottle r.status then
            let hdr := r.retryAfter.getD "5"
            match pyInt? hdr with
            | none => ⟨[], [u], [], some (.valueError hdr)⟩
            | some d =>
              let o := dv_get_paged_aux mp s rest url pages1
              ⟨o.rows, u :: o.gets, max d 5 :: o.sleeps, o.err⟩
          else if 400 ≤ r.status then
            ⟨[], [u], [], some (.httpError r.status u)⟩
          else
            let chunk := r.value
            let o := dv_get_paged_aux mp s rest r.nextLink pages1
            ⟨(if chunk.isEmpty then [] else chunk) ++ o.rows,
             u :: o.gets,
             (if s ≠ 0 then [s] else []) ++ o.sleeps,
             o.err⟩) := by
  rw [dv_get_paged_aux]

/-- With no page cap the page counter never influences the loop. -/
theorem aux_pages_irrel {α : Type} (s : Int) (script : List (HResp α)) :
    ∀ (url : Option String) (p q : Nat),
    dv_get_paged_aux none s script url p = dv_get_paged_aux none s script url q := by
  induction script with
  | nil =>
    intro url p q
    rw [aux_unfold, aux_unfold]
    simp [capHit]
  | cons r rest ih =>
    intro url p q
    rw [aux_unfold, aux_unfold]
    by_cases hu : url.getD "" = ""
    · simp [hu]
    · simp [hu, capHit]
      split
      · split
        · rfl
        · rw [ih url (p+1) (q+1)]
      · split
        · rfl
        · rw [ih r.nextLink (p+1) (q+1)]

theorem if_isEmpty_eq {α : Type} (l : List α) :
    (if l.isEmpty then ([] : List α) else l) = l := by
  cases l <;> simp

def mk_script {α : Type} : List (List α) → List (HResp α)
  | [] => []
  | [p] => [⟨200, none, p, none⟩]
  | p :: q :: rest => ⟨200, none, p, some "next"⟩ :: mk_script (q :: rest)

theorem clean_run {α : Type} :
    ∀ (ps : List (List α)) (u : String) (pages : Nat), ps ≠ [] → u ≠ "" →
    dv_get_paged_aux none 0 (mk_script ps) (some u) pages =
      ⟨ps.flatten, u :: List.replicate (ps.length - 1) "next", [], none⟩ := by
  intro ps
  induction ps with
  | nil => intro u pages h; exact absurd rfl h
  | cons p tail ih =>
    intro u pages _ hu
    cases tail with
    | nil =>
      rw [show mk_script [p] = [⟨200, none, p, none⟩] from rfl, aux_unfold]
      simp [hu, capHit, isThrottle, if_isEmpty_eq]
      rw [aux_unfold]
      simp
    | cons q rest =>
      rw [show mk_script (p :: q :: rest) = ⟨200, none, p, some "next"⟩ :: mk_script (q :: rest) from rfl,
          aux_unfold]
      simp [hu, capHit, isThrottle]
      rw [ih "next" (pages + 1) (by simp) (by decide)]
      simp [if_isEmpty_eq, List.replicate_succ]

theorem capped_run {α : Type} (m : Nat) :
    ∀ (ps : List (List α)) (u : String) (pages : Nat), ps ≠ [] → u ≠ "" →
    (dv_get_paged_aux (some m) 0 (mk_script ps) (some u) pages).rows
        = (ps.take (m - pages)).flatten ∧
    (dv_get_paged_aux (some m) 0 (mk_script ps) (some u) pages).gets.length
        = min (m - pages) ps.length ∧
    (dv_get_paged_aux (some m) 0 (mk_script ps) (some u) pages).err = none := by
  intro ps
  induction ps with
  | nil => intro u pages h; exact absurd rfl h
  | cons p tail ih =>
    intro u pages _ hu
    by_cases hcap : m < pages + 1
    · have hmp : m - pages = 0 := by omega
      rw [aux_unfold]
      simp [hu, capHit, hcap, hmp]
    · have hmp : m - pages = (m - (pages + 1)) + 1 := by omega
      cases tail with
      | nil =>
        rw [show mk_script [p] = [⟨200, none, p, none⟩] from rfl, aux_unfold]
        simp [hu, capHit, hcap, isThrottle, if_isEmpty_eq]
        rw [aux_unfold]
        simp [hmp]
      | cons q rest =>
        rw [show mk_script (p :: q :: rest)
              = ⟨200, none, p, some "next"⟩ :: mk_script (q :: rest) from rfl,
            aux_unfold]
        simp [hu, capHit, hcap, isThrottle, if_isEmpty_eq]
        obtain ⟨h1, h2, h3⟩ := ih "next" (pages + 1) (by simp) (by decide)
        rw [h1, h2, h3]
        simp [hmp, Nat.succ_min_succ]

end DataverseSync

namespace DataverseSync

theorem aux_gets_le_cap {α : Type} (m : Nat) (s : Int) :
    ∀ (script : List (HResp α)) (url : Option String) (pages : Nat),
    (dv_get_paged_aux (some m) s script url pages).gets.length ≤ m - pages := by
  intro script
  induction script with
  | nil =>
    intro url pages
    rw [aux_unfold]
    by_cases hu : url.getD "" = ""
    · simp [hu]
    · by_cases hcap : m < pages + 1
      · simp [hu, capHit, hcap]
      · simp [hu, capHit, hcap]
        omega
  | cons r rest ih =>
    intro url pages
    rw [aux_unfold]
    by_cases hu : url.getD "" = ""
    · simp [hu]
    · by_cases hcap : m < pages + 1
      · simp [hu, capHit, hcap]
      · simp [hu, capHit, hcap]
        split
        · split
          · simp
            omega
          · have := ih url (pages + 1)
            simp only [FetchOut.gets, List.length_cons]
            omega
        · split
          · simp
            omega
          · have := ih r.nextLink (pages + 1)
            simp only [FetchOut.gets, List.length_cons]
            omega

/-! ### Lemmas about the staging store and the job loop -/

theorem tblGet_tblSet_self (t : List (Loc × List String)) (l : Loc) (v : List String) :
    tblGet (tblSet t l v) l = some v := by
  induction t with
  | nil => simp [tblSet, tblGet]
  | cons b t ih =>
    by_cases h : b.1 = l
    · simp [tblSet, tblGet, h]
    · simp [tblSet, tblGet, h, ih]

theorem ensure_schema_tables (db : DB) (s : String) :
    (ensure_schema db s).tables = db.tables := by
  unfold ensure_schema
  split <;> rfl

theorem tblSet_tblSet (t : List (Loc × List String)) (l : Loc) (v w : List String) :
    tblSet (tblSet t l v) l w = tblSet t l w := by
  induction t with
  | nil => simp [tblSet]
  | cons b t ih =>
    by_cases h : b.1 = l
    · simp [tblSet, h]
    · simp [tblSet, h, ih]

/-- After the ensure + truncate + load sequence, the staging location
holds exactly the dumps of the fetched records — whatever it held
before. -/
theorem stage_load_contents {α : Type} (dumps : α → String) (db : DB) (l : Loc)
    (rows : List α) :
    tblGet (stage_load dumps db l rows).tables l = some (rows.map dumps) := by
  unfold stage_load insert_raw_rows truncate_table
  by_cases h : rows.isEmpty
  · have : rows = [] := by simpa using h
    subst this
    simp [tblGet_tblSet_self]
  · simp only [h, if_false, Bool.false_eq_true]
    simp [tblGet_tblSet_self, tblSet_tblSet]

theorem startedKeys_append (a b : List Event) :
    startedKeys (a ++ b) = startedKeys a ++ startedKeys b := by
  simp [startedKeys, List.filterMap_append]

theorem startedKeys_httpGet_map (us : List String) :
    startedKeys (us.map Event.httpGet) = [] := by
  induction us with
  | nil => rfl
  | cons u t ih => simp [startedKeys, List.filterMap_cons]

theorem startedKeys_jobStart_cons (k : String) (evs : List Event) :
    startedKeys (Event.jobStart k :: evs) = k :: startedKeys evs := by
  simp [startedKeys, List.filterMap_cons]

theorem startedKeys_commit_cons (evs : List Event) :
    startedKeys (Event.commit :: evs) = startedKeys evs := by
  simp [startedKeys, List.filterMap_cons]

theorem startedKeys_rollback_cons (evs : List Event) :
    startedKeys (Event.rollback :: evs) = startedKeys evs := by
  simp [startedKeys, List.filterMap_cons]

/-- A run in which every job succeeds commits every job in order. -/
theorem run_jobs_of_run_all {α : Type} (dumps : α → String) (nt : Bool) :
    ∀ (jobs : List (Job α)) (c d : DB), run_all dumps nt c jobs = some d →
    (run_jobs dumps nt c jobs).1 = d ∧ (run_jobs dumps nt c jobs).2.1 = true ∧
    startedKeys (run_jobs dumps nt c jobs).2.2 = jobs.map Job.key := by
  intro jobs
  induction jobs with
  | nil =>
    intro c d h
    simp [run_all] at h
    simp [run_jobs, startedKeys, h]
  | cons j rest ih =>
    intro c d h
    simp only [run_all] at h
    cases hj : run_job dumps nt c j with
    | none => rw [hj] at h; exact absurd h (by simp)
    | some e =>
      rw [hj] at h
      obtain ⟨h1, h2, h3⟩ := ih e d h
      simp only [run_jobs, hj]
      refine ⟨h1, h2, ?_⟩
      rw [startedKeys_append, startedKeys_jobStart_cons, startedKeys_httpGet_map,
          startedKeys_commit_cons]
      simp [h3]

/-! ### Claims C2–C5, C8: the fetch loop -/

/-- **C2 — counterexample.**  Under `max_pages = 1`, a clean remote with
one page yields that page; but if the first attempt is throttled
(429, `Retry-After: 2`), the retry has already consumed the whole page
budget, so the same remote data yields zero rows: a throttled attempt
*is* counted against the cap, and k successful pages are *not* always
obtainable under `max_pages = k`. -/
theorem throttle_consumes_cap_counterexample :
    (dv_get_paged [⟨200, none, [7], none⟩] "u" (some 1) 0).rows = [7] ∧
    (dv_get_paged [⟨429, some "2", ([] : List Nat), none⟩, ⟨200, none, [7], none⟩]
        "u" (some 1) 0).rows = [] ∧
    (dv_get_paged [⟨429, some "2", ([] : List Nat), none⟩, ⟨200, none, [7], none⟩]
        "u" (some 1) 0).err = none := by
  refine ⟨by decide, by decide, by decide⟩

/-- **C2 — amended.**  `pages += 1` runs at the top of every loop
iteration, throttled retries included, so with `max_pages = k` at most
`k` GET requests in total are ever issued, whatever the remote answers. -/
theorem throttled_attempts_consume_page_budget {α : Type} (script : List (HResp α))
    (u : String) (k : Nat) (s : Int) :
    (dv_get_paged script u (some k) s).gets.length ≤ k := by
  simpa using aux_gets_le_cap k s script (some u) 0

/-- **C3.**  For a simulated API returning `N ≥ 1` pages linked by
continuation links and no page cap, the fetch returns the concatenation
of all pages in arrival order, its length is the sum of the page sizes,
no error is raised, and exactly `N` GETs are issued — the loop stops
with the first response carrying no continuation link. -/
theorem pagination_completeness {α : Type} (ps : List (List α)) (h : ps ≠ []) :
    dv_get_paged (mk_script ps) "start" none 0 =
      ⟨ps.flatten, "start" :: List.replicate (ps.length - 1) "next", [], none⟩ ∧
    (dv_get_paged (mk_script ps) "start" none 0).rows.length
      = (ps.map List.length).sum ∧
    (dv_get_paged (mk_script ps) "start" none 0).gets.length = ps.length := by
  have hc := clean_run ps "start" 0 h (by decide)
  unfold dv_get_paged
  rw [hc]
  refine ⟨rfl, by simp [List.length_flatten], ?_⟩
  have : ps.length ≠ 0 := by simpa using h
  simp
  omega

theorem pagination_completeness_witness :
    dv_get_paged (mk_script [[1, 2], [3]]) "start" none 0 =
      ⟨[1, 2, 3], ["start", "next"], [], none⟩ ∧
    (dv_get_paged (mk_script [[1, 2], [3]]) "start" none 0).rows.length = 3 ∧
    (dv_get_paged (mk_script [[1, 2], [3]]) "start" none 0).gets.length = 2 := by
  have h := pagination_completeness [[1, 2], [3]] (by decide)
  exact ⟨by simpa using h.1, by simpa using h.2.1, by simpa using h.2.2⟩

/-- **C4 — counterexample.**  A 429 response with `Retry-After: 2` under
`max_pages = 1`: the fetcher sleeps `max(2, 5) = 5` seconds, but the
identical request is *not* reissued — the retry iteration trips the page
cap and the loop exits — so the retry does not repeat indefinitely. -/
theorem throttle_retry_counterexample :
    dv_get_paged [⟨429, some "2", ([] : List Nat), none⟩] "u" (some 1) 0
      = ⟨[], ["u"], [5], none⟩ := by decide

/-- **C4 — amended.**  With no page cap, a throttling response whose
retry hint parses to `d` makes the fetcher sleep `max(d, 5)` seconds and
then reissue the identical request (same URL), with the accumulated
records unchanged by the throttled attempt; with a cap, the throttled
attempt consumes page budget and the reissue happens only while budget
remains. -/
theorem throttle_retry {α : Type} (r : HResp α) (rest : List (HResp α))
    (u : String) (s : Int) (d : Int)
    (ht : isThrottle r.status = true) (hu : u ≠ "")
    (hd : pyInt? (r.retryAfter.getD "5") = some d) :
    dv_get_paged (r :: rest) u none s =
      ⟨(dv_get_paged rest u none s).rows,
       u :: (dv_get_paged rest u none s).gets,
       max d 5 :: (dv_get_paged rest u none s).sleeps,
       (dv_get_paged rest u none s).err⟩ := by
  unfold dv_get_paged
  rw [aux_unfold]
  simp [hu, capHit, ht, hd]
  rw [aux_pages_irrel s rest (some u) 1 0]
  exact ⟨rfl, rfl, rfl, rfl⟩

theorem throttle_retry_witness :
    dv_get_paged [⟨429, some "2", ([] : List Nat), none⟩, ⟨200, none, [7], none⟩]
        "u" none 0
      = ⟨[7], ["u", "u"], [5], none⟩ := by
  rw [throttle_retry ⟨429, some "2", ([] : List Nat), none⟩ [⟨200, none, [7], none⟩]
    "u" 0 2 (by decide) (by decide) (by decide)]
  decide

/-- A parse failure of the `Retry-After` header surfaced to the caller. -/
def surfacedParseError (o : Option FetchErr) : Bool :=
  match o with
  | some (FetchErr.valueError _) => true
  | _ => false

/-- **C5 — counterexample.**  A 429 response whose `Retry-After` header
is `"soon"` — no transport failure — is surfaced to the caller as an
error (`int("soon")` raises `ValueError`), so the throttle condition is
*not* handled regardless of the header's content. -/
theorem throttle_surfaces_error_counterexample :
    dv_get_paged [⟨429, some "soon", ([] : List Nat), none⟩] "u" none 0
      = ⟨[], ["u"], [], some (FetchErr.valueError "soon")⟩ := by decide

/-- No iteration of the loop surfaces a `Retry-After` parse failure when
every throttling response's retry hint parses. -/
theorem aux_no_parse_error {α : Type} (mp : Option Nat) (s : Int) :
    ∀ (script : List (HResp α)),
    (∀ r ∈ script, isThrottle r.status = true →
      (pyInt? (r.retryAfter.getD "5")).isSome = true) →
    ∀ (url : Option String) (pages : Nat),
    surfacedParseError (dv_get_paged_aux mp s script url pages).err = false := by
  intro script
  induction script with
  | nil =>
    intro _ url pages
    rw [aux_unfold]
    by_cases hu : url.getD "" = ""
    · simp [hu, surfacedParseError]
    · by_cases hcap : capHit mp (pages + 1) = true
      · simp [hu, hcap, surfacedParseError]
      · simp [hu, hcap, surfacedParseError]
  | cons r rest ih =>
    intro h url pages
    rw [aux_unfold]
    by_cases hu : url.getD "" = ""
    · simp [hu, surfacedParseError]
    · by_cases hcap : capHit mp (pages + 1) = true
      · simp [hu, hcap, surfacedParseError]
      · by_cases ht : isThrottle r.status = true
        · cases hp : pyInt? (r.retryAfter.getD "5") with
          | none =>
            have hr := h r (by simp) ht
            rw [hp] at hr
            simp at hr
          | some d =>
            have hrest := ih (fun x hx hx2 => h x (by simp [hx]) hx2) url (pages + 1)
            simp [hu, hcap, ht, hp, hrest]
        · by_cases hs : 400 ≤ r.status
          · simp [hu, hcap, ht, hs, surfacedParseError]
          · have hrest := ih (fun x hx hx2 => h x (by simp [hx]) hx2) r.nextLink (pages + 1)
            simp [hu, hcap, ht, hs, hrest]

/-- **C5 — amended.**  Provided every throttling response in the script
carries a `Retry-After` value that parses as an integer (absence
defaults to `"5"`), a throttling status never surfaces to the caller as
an error: the only possible errors are non-throttle HTTP errors and
transport failures. -/
theorem throttle_not_surfaced {α : Type} (script : List (HResp α))
    (h : ∀ r ∈ script, isThrottle r.status = true →
      (pyInt? (r.retryAfter.getD "5")).isSome = true)
    (u : String) (mp : Option Nat) (s : Int) :
    surfacedParseError (dv_get_paged script u mp s).err = false :=
  aux_no_parse_error mp s script h (some u) 0

theorem throttle_not_surfaced_witness :
    surfacedParseError (dv_get_paged [⟨429, some "2", ([] : List Nat), none⟩,
      ⟨503, none, [], none⟩, ⟨200, none, [9], none⟩] "u" none 0).err = false :=
  throttle_not_surfaced [⟨429, some "2", ([] : List Nat), none⟩,
      ⟨503, none, [], none⟩, ⟨200, none, [9], none⟩] (by decide) "u" none 0

/-- **C8.**  With `max_pages = k` and a clean remote offering `N > k`
pages, the fetch stops early with no error, issuing exactly `k` GETs and
returning exactly the records of the first `k` pages. -/
theorem page_cap_honored {α : Type} (ps : List (List α)) (k : Nat)
    (h : k < ps.length) :
    (dv_get_paged (mk_script ps) "start" (some k) 0).err = none ∧
    (dv_get_paged (mk_script ps) "start" (some k) 0).rows = (ps.take k).flatten ∧
    (dv_get_paged (mk_script ps) "start" (some k) 0).gets.length = k := by
  have hne : ps ≠ [] := by intro e; subst e; simp at h
  obtain ⟨h1, h2, h3⟩ := capped_run k ps "start" 0 hne (by decide)
  unfold dv_get_paged
  refine ⟨by simpa using h3, by simpa using h1, ?_⟩
  rw [show (0 : Nat) = 0 from rfl] at h2
  simp only [Nat.sub_zero] at h2
  rw [h2]
  omega

theorem page_cap_honored_witness :
    (dv_get_paged (mk_script [[1], [2], [3]]) "start" (some 2) 0).err = none ∧
    (dv_get_paged (mk_script [[1], [2], [3]]) "start" (some 2) 0).rows = [1, 2] ∧
    (dv_get_paged (mk_script [[1], [2], [3]]) "start" (some 2) 0).gets.length = 2 := by
  have h := page_cap_honored [[1], [2], [3]] 2 (by decide)
  exact ⟨h.1, by simpa using h.2.1, h.2.2⟩

/-! ### Claims C1, C6, C7, C9, C10: staging load and orchestration -/

/-- **C1 — counterexample.**  Requesting the unknown key `"unknown_key"`
makes the run return exit status 2 reporting it, with no store
connection and no data GET — but the event trace already contains the
authentication HTTP request (line 206 runs before the key check of line
324), so network activity *does* precede the failure. -/
theorem invalid_keys_counterexample :
    main (α := Nat) ⟨some ["unknown_key"], false⟩ (fun _ => "r")
        (fun k => ⟨k, ("staging", k), ⟨[], [], [], none⟩, none⟩) ⟨[], []⟩
      = (MainOutcome.exit2 ["unknown_key"], [Event.authRequest], ⟨[], []⟩) ∧
    Event.authRequest ∈
      (main (α := Nat) ⟨some ["unknown_key"], false⟩ (fun _ => "r")
        (fun k => ⟨k, ("staging", k), ⟨[], [], [], none⟩, none⟩) ⟨[], []⟩).2.1 := by
  refine ⟨by decide, by decide⟩

/-- **C1 — amended.**  If the caller supplies a non-empty list of
requested keys of which at least one is not in the registry, the run
returns the distinct status 2 reporting exactly the invalid keys, before
the store connection is opened and before any data GET — but *after* the
one-time authentication HTTP request has been issued: the whole event
trace is `[authRequest]`. -/
theorem invalid_keys_fail_before_store {α : Type} (dumps : α → String)
    (jobOf : String → Job α) (db0 : DB) (nt : Bool) (ks : List String)
    (h1 : ks ≠ [])
    (h2 : (ks.filter fun k => !(TABLES_keys.contains k)) ≠ []) :
    main ⟨some ks, nt⟩ dumps jobOf db0 =
      (MainOutcome.exit2 (ks.filter fun k => !(TABLES_keys.contains k)),
       [Event.authRequest], db0) := by
  have h1' : ks.isEmpty = false := by simpa using h1
  have h2' : (ks.filter fun k => !(TABLES_keys.contains k)).isEmpty = false := by
    simpa using h2
  have hsel : selectKeys (some ks)
      = Except.error (ks.filter fun k => !(TABLES_keys.contains k)) := by
    simp only [selectKeys]
    rw [if_neg (by simpa using h1), if_neg (by simpa using h2)]
  simp [main, hsel]

theorem invalid_keys_fail_before_store_witness :
    main (α := Nat) ⟨some ["systemusers", "nope"], false⟩ (fun _ => "r")
        (fun k => ⟨k, ("staging", k), ⟨[], [], [], none⟩, none⟩) ⟨[], []⟩
      = (MainOutcome.exit2 ["nope"], [Event.authRequest], ⟨[], []⟩) := by
  have h := invalid_keys_fail_before_store (α := Nat) (fun _ => "r")
    (fun k => ⟨k, ("staging", k), ⟨[], [], [], none⟩, none⟩) ⟨[], []⟩ false
    ["systemusers", "nope"] (by decide) (by decide)
  simpa using h

/-- **C6.**  If the jobs `done` all succeed from committed state `c`
(reaching committed state `c'`) and the next job `j` raises at any step,
then the run's final store is exactly `c'` — the in-flight transaction
is rolled back, so `j`'s staging location is in its pre-run state and
every earlier job's committed data persists — the run fails, the
attempted jobs are exactly `done` and `j` (nothing from `rest`), and a
rollback is performed. -/
theorem job_failure_rolls_back {α : Type} (dumps : α → String) (nt : Bool)
    (c c' : DB) (done : List (Job α)) (j : Job α) (rest : List (Job α))
    (h1 : run_all dumps nt c done = some c')
    (h2 : run_job dumps nt c' j = none) :
    (run_jobs dumps nt c (done ++ j :: rest)).1 = c' ∧
    (run_jobs dumps nt c (done ++ j :: rest)).2.1 = false ∧
    startedKeys (run_jobs dumps nt c (done ++ j :: rest)).2.2
      = done.map Job.key ++ [j.key] ∧
    Event.rollback ∈ (run_jobs dumps nt c (done ++ j :: rest)).2.2 := by
  induction done generalizing c with
  | nil =>
    simp [run_all] at h1
    subst h1
    simp [run_jobs, h2, startedKeys_append, startedKeys_jobStart_cons,
      startedKeys_httpGet_map, startedKeys]
  | cons a done ih =>
    simp only [run_all] at h1
    cases ha : run_job dumps nt c a with
    | none => rw [ha] at h1; exact absurd h1 (by simp)
    | some e =>
      rw [ha] at h1
      obtain ⟨g1, g2, g3, g4⟩ := ih e h1
      simp [run_jobs, ha, startedKeys_append, startedKeys_jobStart_cons,
        startedKeys_httpGet_map, startedKeys_commit_cons, g1, g2, g3, g4]

theorem job_failure_rolls_back_witness :
    (run_jobs (fun r : String => r) false ⟨[], []⟩
        ([⟨"a", ("staging", "ta"), ⟨["r1", "r2"], ["ua"], [], none⟩, none⟩] ++
         ⟨"b", ("staging", "tb"), ⟨["r3"], ["ub"], [], none⟩,
            some (fun _ => none)⟩ ::
         [⟨"c", ("staging", "tc"), ⟨["r4"], ["uc"], [], none⟩, none⟩])).1
      = ⟨["staging"], [(("staging", "ta"), ["r1", "r2"])]⟩ ∧
    (run_jobs (fun r : String => r) false ⟨[], []⟩
        ([⟨"a", ("staging", "ta"), ⟨["r1", "r2"], ["ua"], [], none⟩, none⟩] ++
         ⟨"b", ("staging", "tb"), ⟨["r3"], ["ub"], [], none⟩,
            some (fun _ => none)⟩ ::
         [⟨"c", ("staging", "tc"), ⟨["r4"], ["uc"], [], none⟩, none⟩])).2.1
      = false := by
  have h := job_failure_rolls_back (fun r : String => r) false ⟨[], []⟩
    ⟨["staging"], [(("staging", "ta"), ["r1", "r2"])]⟩
    [⟨"a", ("staging", "ta"), ⟨["r1", "r2"], ["ua"], [], none⟩, none⟩]
    ⟨"b", ("staging", "tb"), ⟨["r3"], ["ub"], [], none⟩, some (fun _ => none)⟩
    [⟨"c", ("staging", "tc"), ⟨["r4"], ["uc"], [], none⟩, none⟩]
    (by decide) rfl
  exact ⟨h.1, h.2.1⟩

/-- **C7.**  The clear-then-load sequence leaves the staging location
holding exactly the dumps of the fetched record set, independently of
its prior contents; hence running the same job twice over unchanged
remote data leaves the same row count and content both times. -/
theorem reload_idempotent {α : Type} (dumps : α → String) (db : DB) (l : Loc)
    (rows : List α) :
    tblGet (stage_load dumps db l rows).tables l = some (rows.map dumps) ∧
    tblGet (stage_load dumps (stage_load dumps db l rows) l rows).tables l
      = tblGet (stage_load dumps db l rows).tables l := by
  refine ⟨stage_load_contents dumps db l rows, ?_⟩
  rw [stage_load_contents, stage_load_contents]

/-- **C9.**  A successful response with `"value": []` and no
continuation link yields an empty record set with no error;
bulk-appending an empty record set is a no-op on the store; and after
the clear-then-load sequence with no records the staging location ends
empty (not errored). -/
theorem empty_value_noop {α : Type} (dumps : α → String) (db : DB) (l : Loc) :
    dv_get_paged [⟨200, none, ([] : List Nat), none⟩] "u" none 0
      = ⟨[], ["u"], [], none⟩ ∧
    insert_raw_rows dumps db l [] = db ∧
    tblGet (stage_load dumps db l ([] : List α)).tables l = some [] := by
  refine ⟨by decide, rfl, ?_⟩
  simpa using stage_load_contents dumps db l ([] : List α)

/-- **C10.**  A valid non-empty selection runs exactly the requested
keys, in the caller-supplied order — `run_keys = args.only` verbatim —
so a key listed twice is executed once per occurrence: when every job
succeeds, the attempted-job trace equals the requested key list itself. -/
theorem caller_order_selection {α : Type} (dumps : α → String) (nt : Bool)
    (ks : List String) (jobOf : String → Job α) (db0 d : DB)
    (h1 : ks ≠ []) (h2 : ∀ k ∈ ks, k ∈ TABLES_keys)
    (h3 : ∀ k, (jobOf k).key = k)
    (h4 : run_all dumps nt db0 (ks.map jobOf) = some d) :
    selectKeys (some ks) = Except.ok ks ∧
    startedKeys (run_jobs dumps nt db0 (ks.map jobOf)).2.2 = ks ∧
    (run_jobs dumps nt db0 (ks.map jobOf)).1 = d := by
  obtain ⟨g1, g2, g3⟩ := run_jobs_of_run_all dumps nt (ks.map jobOf) db0 d h4
  refine ⟨?_, ?_, g1⟩
  · have h1' : ks.isEmpty = false := by simpa using h1
    simp only [selectKeys, h1', Bool.false_eq_true, if_false]
    rw [if_pos (by simpa using fun x hx => h2 x hx)]
  · rw [g3, List.map_map]
    have : (Job.key ∘ jobOf) = id := funext fun k => h3 k
    simp [this]

theorem caller_order_selection_witness :
    selectKeys (some ["systemusers", "new_servloc", "systemusers"])
      = Except.ok ["systemusers", "new_servloc", "systemusers"] ∧
    startedKeys (run_jobs (fun r : String => r) false ⟨[], []⟩
        (["systemusers", "new_servloc", "systemusers"].map
          (fun k => (⟨k, ("staging", k), ⟨[], [], [], none⟩, none⟩ : Job String)))).2.2
      = ["systemusers", "new_servloc", "systemusers"] := by
  have h := caller_order_selection (fun r : String => r) false
    ["systemusers", "new_servloc", "systemusers"]
    (fun k => ⟨k, ("staging", k), ⟨[], [], [], none⟩, none⟩) ⟨[], []⟩
    ⟨["staging"], [(("staging", "systemusers"), []), (("staging", "new_servloc"), [])]⟩
    (by decide) (by decide) (fun k => rfl) (by decide)
  exact ⟨h.1, h.2.1⟩

end DataverseSync
